import Mathlib

/-!
Shallow embedding of the polite GET batch dispatcher implemented twice in this
repository: `app.py` (Flask web variant, namespace `App`) and `fos.py`
(command-line variant, namespace `Fos`).  Network I/O is abstracted by an
environment `env : Nat → AttemptResult` giving, for each attempt number, what
`session.get` produced on that attempt (an exception or a response).  Python
floats are modelled as exact rationals (every value appearing here — 0.1,
backoff powers of two capped at 10 or 60 — is handled exactly up to the float
rounding of literals, which none of the statements depend on).  Strings are
modelled as lists of characters; Python library functions used by the scripts
(`str.strip`, `int`, `float`, substring test, `str.format` with the single
keyword `n`, `urllib.parse.urlparse`, `time.sleep`) are modelled on the ASCII
fragment the scripts exercise.
-/

/-- Character strings, modelled as lists of characters. -/
abbrev Str := List Char

/-- Does the second list start with the first one? -/
def startsWithSeq : Str → Str → Bool
  | [], _ => true
  | _ :: _, [] => false
  | p :: ps, c :: cs => p == c && startsWithSeq ps cs

/-- Substring test: models the Python expression `pat in s`. -/
def containsSeq (pat : Str) : Str → Bool
  | [] => pat.isEmpty
  | c :: rest => startsWithSeq pat (c :: rest) || containsSeq pat rest

/-- ASCII whitespace, as stripped by Python `str.strip`. -/
def isSpace (c : Char) : Bool :=
  c == ' ' || c == '\t' || c == '\n' || c == '\r' || c == '\x0b' || c == '\x0c'

/-- Models Python `str.strip()` (ASCII whitespace fragment). -/
def stripChars (l : Str) : Str :=
  ((l.dropWhile isSpace).reverse.dropWhile isSpace).reverse

/-- Numeric value of a decimal digit character. -/
def digitVal (c : Char) : Nat := c.toNat - '0'.toNat

/-- Value of a (nonempty, all-digits) decimal numeral. -/
def digitsVal (l : Str) : Nat := l.foldl (fun a c => a * 10 + digitVal c) 0

/-- Parses a plain decimal numeral; `none` when empty or not all digits. -/
def digitsToNat (l : Str) : Option Nat :=
  if l ≠ [] ∧ l.all Char.isDigit then some (digitsVal l) else none

/-- Models Python `int(s)` for a string: surrounding whitespace, an optional
sign, then decimal digits; `none` models the `ValueError` raised otherwise
(underscored numerals, not used by any input considered here, are outside the
model). -/
def pyInt (s : Str) : Option ℤ :=
  match stripChars s with
  | '-' :: ds => (digitsToNat ds).map (fun n => -(n : ℤ))
  | '+' :: ds => (digitsToNat ds).map (fun n => (n : ℤ))
  | ds => (digitsToNat ds).map (fun n => (n : ℤ))

/-- Unsigned part of Python `float(s)`: digits with an optional single point,
at least one digit overall. -/
def pyFloatUnsigned (l : Str) : Option ℚ :=
  match l.dropWhile Char.isDigit with
  | [] => if l.takeWhile Char.isDigit = [] then none
          else some (digitsVal (l.takeWhile Char.isDigit) : ℚ)
  | '.' :: fp =>
      if fp.all Char.isDigit ∧ (l.takeWhile Char.isDigit ≠ [] ∨ fp ≠ []) then
        some ((digitsVal (l.takeWhile Char.isDigit) : ℚ) +
              (digitsVal fp : ℚ) / (10 ^ fp.length))
      else none
  | _ => none

/-- Models Python `float(s)` on plain decimal notation (no exponents); `none`
models the `ValueError` raised on anything unparsable. -/
def pyFloat (s : Str) : Option ℚ :=
  match stripChars s with
  | '-' :: r => (pyFloatUnsigned r).map Neg.neg
  | '+' :: r => pyFloatUnsigned r
  | r => pyFloatUnsigned r

/-- Models Python `str.isdigit()` on the ASCII fragment. -/
def pyIsdigit (v : Str) : Bool := !v.isEmpty && v.all Char.isDigit

/-- The placeholder token `{n}` looked for by both `worker_task` variants. -/
def nTok : Str := ['\x7b', 'n', '\x7d']

/-- Models Python `template.replace("\x7bn\x7d", rep)`: leftmost,
non-overlapping replacement of every occurrence of the placeholder. -/
def replaceToken : Str → Str → Str
  | '\x7b' :: 'n' :: '\x7d' :: rest, rep => rep ++ replaceToken rest rep
  | c :: rest, rep => c :: replaceToken rest rep
  | [], _ => []

def fmtUnterminatedMsg : Str :=
  "ValueError: expected closing brace before end of string".toList

def fmtKeyErrorMsg : Str := "KeyError in format string".toList

def fmtSingleBraceMsg : Str := "ValueError: single closing brace".toList

/-- Models Python `template.format(n := n)` restricted to the single keyword
argument `n` with no conversion or format-spec syntax: doubled braces are
escapes, the field `\x7bn\x7d` is replaced by the decimal representation of
`n`, and every other field or stray brace raises (modelled as `Except.error`;
the exact message texts are not part of the model).  `field = none` is literal
mode; `field = some acc` means a replacement field is open with `acc` read so
far.  The fuel argument only serves structural recursion; every character
consumes at least one unit, so any fuel at least the string length gives the
parse result. -/
def pyFmtGo (n : Nat) : Nat → Option Str → Str → Except Str Str
  | _, none, [] => .ok []
  | _, some _, [] => .error fmtUnterminatedMsg
  | 0, _, _ :: _ => .error fmtUnterminatedMsg
  | fuel + 1, field, c :: rest =>
    match field with
    | some acc =>
      if c = '\x7d' then
        if acc = ['n'] then
          (pyFmtGo n fuel none rest).map (fun t => Nat.toDigits 10 n ++ t)
        else .error fmtKeyErrorMsg
      else pyFmtGo n fuel (some (acc ++ [c])) rest
    | none =>
      if c = '\x7b' then
        match rest with
        | '\x7b' :: rest2 => (pyFmtGo n fuel none rest2).map (fun t => '\x7b' :: t)
        | _ => pyFmtGo n fuel (some []) rest
      else if c = '\x7d' then
        match rest with
        | '\x7d' :: rest2 => (pyFmtGo n fuel none rest2).map (fun t => '\x7d' :: t)
        | _ => .error fmtSingleBraceMsg
      else (pyFmtGo n fuel none rest).map (fun t => c :: t)

/-- Models Python `template.format(n := n)` (see `pyFmtGo`). -/
def pyFormatN (n : Nat) (template : Str) : Except Str Str :=
  pyFmtGo n template.length none template

/-- The URL expansion performed by both `worker_task` variants:
`template.format(n := n) if "\x7bn\x7d" in template else template`. -/
def expandURL (template : Str) (n : Nat) : Except Str Str :=
  if containsSeq nTok template then pyFormatN n template else .ok template

/-- Characters Python `urlparse` accepts inside a scheme. -/
def schemeOkChar (c : Char) : Bool :=
  c.isAlpha || c.isDigit || c == '+' || c == '-' || c == '.'

/-- Splits a string at its first colon, when present. -/
def splitAtColon : Str → Option (Str × Str)
  | [] => none
  | ':' :: rest => some ([], rest)
  | c :: rest => (splitAtColon rest).map (fun p => (c :: p.1, p.2))

/-- Models `urllib.parse.urlparse(u)` far enough to read off the scheme and
the network location: a scheme is split off at the first colon when the part
before it is nonempty and made of scheme characters, and the netloc is the
run after a leading `//` up to a `/`, `?` or `#`. -/
def urlSchemeNetloc (u : Str) : Str × Str :=
  let (scheme, rest) :=
    match splitAtColon u with
    | some (s, r) =>
      if !s.isEmpty && s.all schemeOkChar then (s.map Char.toLower, r)
      else ([], u)
    | none => ([], u)
  let netloc :=
    match rest with
    | '/' :: '/' :: r => r.takeWhile (fun c => !(c == '/' || c == '?' || c == '#'))
    | _ => []
  (scheme, netloc)

/-- Translation of `is_valid_url` (identical in `app.py` and `fos.py`):
the parsed scheme is `http` or `https` and the netloc is nonempty. -/
def is_valid_url (u : Str) : Bool :=
  let p := urlSchemeNetloc u
  (p.1 == "http".toList || p.1 == "https".toList) && !p.2.isEmpty

def sleepErrMsg : Str := "sleep length must be non-negative".toList

/-- Models `time.sleep(d)`: raises `ValueError` on a negative duration,
otherwise completes. -/
def pySleep (d : ℚ) : Except Str Unit :=
  if d < 0 then .error sleepErrMsg else .ok ()

/-- What one `session.get` call produced: a raised `requests.RequestException`
(carrying the text of the exception) or a response with a status code and a
body length. -/
inductive AttemptResult where
  | netError (msg : Str)
  | response (status : Nat) (bodyLen : Nat)
deriving DecidableEq

/-- The per-request result dictionaries built by `polite_get`:
`success` and `httpFailure` are `\x7burl, status, len\x7d` (status 200
vs. any other), `networkFailure` is the `network error` dictionary with
`status: None`, `retriesExhausted` the `max retries exhausted` one. -/
inductive Outcome where
  | success (url : Str) (status : Nat) (len : Nat)
  | httpFailure (url : Str) (status : Nat) (len : Nat)
  | networkFailure (url : Str) (msg : Str)
  | retriesExhausted (url : Str)
deriving DecidableEq

/-- The value of the `status` key of the result dictionary (`none` models
Python `None`). -/
def statusOf : Outcome → Option Nat
  | .success _ s _ => some s
  | .httpFailure _ s _ => some s
  | .networkFailure _ _ => none
  | .retriesExhausted _ => none

/-- One run of `polite_get`: its returned dictionary, the durations passed to
`time.sleep` between attempts (in order), and how many `session.get` calls
were made. -/
structure ExecTrace where
  outcome : Outcome
  sleeps : List ℚ
  calls : Nat
deriving DecidableEq

/-- The statuses retried by both `polite_get` variants. -/
def retryableStatuses : List Nat := [429, 500, 502, 503, 504]

/-- The retry loop of `polite_get` (`for attempt in range(1, max_retries+1)`),
shared verbatim by both variants up to the constants `max_retries` and the
backoff cap.  `fuel` is the number of loop iterations still available
(initially `max_retries`); exhausting it models falling off the loop into the
`max retries exhausted` return. -/
def politeGetLoop (env : Nat → AttemptResult) (url : Str) (maxRetries : Nat)
    (cap : ℚ) : Nat → Nat → ℚ → ExecTrace
  | 0, _, _ => ⟨.retriesExhausted url, [], 0⟩
  | fuel + 1, attempt, backoff =>
    match env attempt with
    | .netError msg =>
      if attempt = maxRetries then
        ⟨.networkFailure url ("network error: ".toList ++ msg), [], 1⟩
      else
        let t := politeGetLoop env url maxRetries cap fuel (attempt + 1)
          (min (backoff * 2) cap)
        ⟨t.outcome, backoff :: t.sleeps, t.calls + 1⟩
    | .response status len =>
      if status = 200 then ⟨.success url status len, [], 1⟩
      else if status ∈ retryableStatuses ∧ attempt < maxRetries then
        let t := politeGetLoop env url maxRetries cap fuel (attempt + 1)
          (min (backoff * 2) cap)
        ⟨t.outcome, backoff :: t.sleeps, t.calls + 1⟩
      else ⟨.httpFailure url status len, [], 1⟩

/-- `polite_get`, parametrised by the two constants on which the variants
differ: attempts start at 1 with backoff 1.0. -/
def politeGet (env : Nat → AttemptResult) (url : Str) (maxRetries : Nat)
    (cap : ℚ) : ExecTrace :=
  politeGetLoop env url maxRetries cap maxRetries 1 1

/-- The body of both `worker_task` variants: expand the URL template, run
`polite_get`, then `time.sleep(delay)`; the second component counts the
`session.get` calls made.  An `Except.error` models an exception escaping the
worker (a `str.format` error or a negative-delay `time.sleep`). -/
def workerTask (maxRetries : Nat) (cap : ℚ) (env : Nat → AttemptResult)
    (template : Str) (n : Nat) (delay : ℚ) : Except Str Outcome × Nat :=
  match expandURL template n with
  | .error e => (.error e, 0)
  | .ok url =>
    let t := politeGet env url maxRetries cap
    match pySleep delay with
    | .error e => (.error e, t.calls)
    | .ok _ => (.ok t.outcome, t.calls)

/-- Gathering `future.result()` over the submitted workers: the first raised
exception propagates (modelled in submission order; the aggregate counts the
claims are about are order-independent). -/
def collectE : List (Except Str Outcome) → Except Str (List Outcome)
  | [] => .ok []
  | .error e :: _ => .error e
  | .ok r :: rest => (collectE rest).map (fun rs => r :: rs)

/-- `successCount` as both scripts compute it:
`sum(1 for r in results if r.get("status") == 200)`. -/
def count200 (rs : List Outcome) : Nat :=
  rs.countP (fun r => statusOf r == some 200)

/-- The parsed form fields of the web variant's POST handler (`request.form`);
`none` models an absent field. -/
structure Form where
  url : Option String
  total : Option String
  concurrency : Option String
  delay : Option String

/-- The value the POST handler returns: one of the two rejection pages, or
the rendered results page with its `total`, `200 OK` and `Errors` counts and
the per-request result list. -/
inductive HomeResponse where
  | invalidURL
  | tooMany
  | summary (total : ℤ) (ok : Nat) (errors : ℤ) (results : List Outcome)
deriving DecidableEq

/-- Models `int(field or default)` wrapped in `try/except` with the same
default: an absent or empty field gives the default, an unparsable one is
caught and gives the default. -/
def parseIntOr (o : Option String) (d : ℤ) : ℤ :=
  match o with
  | none => d
  | some s => if s = "" then d else (pyInt s.toList).getD d

/-- Models `float(field or default)` wrapped in `try/except` with the same
default. -/
def parseFloatOr (o : Option String) (d : ℚ) : ℚ :=
  match o with
  | none => d
  | some s => if s = "" then d else (pyFloat s.toList).getD d

namespace App

def DEFAULT_DELAY : ℚ := 1 / 10

def DEFAULT_CONCURRENCY : ℤ := 1

def DEFAULT_MAX_REQUESTS : ℤ := 1000

/-- `polite_get` of `app.py`: `max_retries = 3`, backoff cap 10. -/
def polite_get (env : Nat → AttemptResult) (url : Str) : ExecTrace :=
  politeGet env url 3 10

/-- `worker_task` of `app.py`. -/
def worker_task (env : Nat → AttemptResult) (template : Str) (n : Nat)
    (delay : ℚ) : Except Str Outcome × Nat :=
  workerTask 3 10 env template n delay

/-- The stripped `url` form field. -/
def urlOf (form : Form) : Str := stripChars (form.url.getD "").toList

/-- The parsed `total` form field (defaults to 1, also on parse failure). -/
def totalOf (form : Form) : ℤ := parseIntOr form.total 1

/-- The parsed `concurrency` form field. -/
def concOf (form : Form) : ℤ := parseIntOr form.concurrency DEFAULT_CONCURRENCY

/-- The parsed `delay` form field. -/
def delayOf (form : Form) : ℚ := parseFloatOr form.delay DEFAULT_DELAY

/-- The worker runs submitted to the pool: one per index in
`range(1, total + 1)`, each on its own attempt environment `env i`. -/
def traces (form : Form) (env : Nat → Nat → AttemptResult) :
    List (Except Str Outcome × Nat) :=
  (List.range' 1 (totalOf form).toNat).map
    (fun i => worker_task (env i) (urlOf form) i (delayOf form))

/-- The results page: `ok` counts status-200 results and
`errors = total - ok`, exactly as lines 92–93 of `app.py` compute them. -/
def summarize (total : ℤ) (results : List Outcome) : HomeResponse :=
  .summary total (count200 results) (total - (count200 results : ℤ)) results

def maxWorkersMsg : Str := "max_workers must be greater than 0".toList

/-- The POST branch of `home` in `app.py`: URL validation, field parsing with
defaults, the `total` cap, the worker pool (whose `ThreadPoolExecutor` raises
when `min(conc, 5)` is not positive), collection of the futures, and the
summary.  The second component counts `session.get` calls; an `Except.error`
models an exception escaping the handler. -/
def home (form : Form) (env : Nat → Nat → AttemptResult) :
    Except Str HomeResponse × Nat :=
  if (urlOf form).isEmpty || !is_valid_url (replaceToken (urlOf form) ['1'])
  then (.ok .invalidURL, 0)
  else if DEFAULT_MAX_REQUESTS < totalOf form then (.ok .tooMany, 0)
  else if min (concOf form) 5 ≤ 0 then (.error maxWorkersMsg, 0)
  else
    match collectE ((traces form env).map Prod.fst) with
    | .error e => (.error e, ((traces form env).map Prod.snd).sum)
    | .ok results =>
      (.ok (summarize (totalOf form) results),
       ((traces form env).map Prod.snd).sum)

end App

namespace Fos

def DEFAULT_DELAY : ℚ := 1 / 1000000

def DEFAULT_CONCURRENCY : ℤ := 100

def DEFAULT_MAX_REQUESTS : ℤ := 50000000000

/-- `polite_get` of `fos.py`: `max_retries = 5`, backoff cap 60. -/
def polite_get (env : Nat → AttemptResult) (url : Str) : ExecTrace :=
  politeGet env url 5 60

/-- `worker_task` of `fos.py`. -/
def worker_task (env : Nat → AttemptResult) (template : Str) (n : Nat)
    (delay : ℚ) : Except Str Outcome × Nat :=
  workerTask 5 60 env template n delay

/-- The validator the `total` prompt loops on (line 87 of `fos.py`):
`v.isdigit() and int(v) > 0`; `int(v)` never raises once `isdigit` holds, so
its parse failure case is read as 0 here. -/
def totalCheck (v : Str) : Bool :=
  pyIsdigit v && decide (0 < (pyInt v).getD 0)

/-- The dispatch-and-summary portion of `main` in `fos.py` (lines 114–139),
after the interactive prompts have produced a validated `url`, `total`,
`delay`: the worker pool, collection, and the final
`ok` / `errors = total - ok` summary, with the `session.get` call count as
second component. -/
def mainBatch (env : Nat → Nat → AttemptResult) (url : Str) (total : Nat)
    (delay : ℚ) : Except Str (Nat × ℤ × List Outcome) × Nat :=
  let traces := (List.range' 1 total).map
    (fun i => worker_task (env i) url i delay)
  match collectE (traces.map Prod.fst) with
  | .error e => (.error e, (traces.map Prod.snd).sum)
  | .ok results =>
    (.ok (count200 results, (total : ℤ) - (count200 results : ℤ), results),
     (traces.map Prod.snd).sum)

end Fos

/-- The backoff sequence of the retry loop: starts at 1.0 and is advanced by
`backoff = min(backoff * 2, cap)` on every retry. -/
def backoffSeq (cap : ℚ) : Nat → ℚ
  | 0 => 1
  | j + 1 => min (backoffSeq cap j * 2) cap

/-- Written from the spec's words for URL expansion, to compare against the
code's `expandURL`: substitute the decimal index for every occurrence of the
placeholder token, leaving a placeholder-free template unchanged. -/
def specExpand (template : Str) (n : Nat) : Str :=
  replaceToken template (Nat.toDigits 10 n)

/-- A string with no brace characters. -/
def braceFree (l : Str) : Prop := ∀ c ∈ l, c ≠ '\x7b' ∧ c ≠ '\x7d'

instance (l : Str) : Decidable (braceFree l) := by
  unfold braceFree; infer_instance

/-! ### Step lemmas for the retry loop -/

theorem politeGetLoop_success (env : Nat → AttemptResult) (url : Str)
    (maxRetries : Nat) (cap : ℚ) (fuel attempt : Nat) (backoff : ℚ) (len : Nat)
    (hs : env attempt = .response 200 len) :
    politeGetLoop env url maxRetries cap (fuel + 1) attempt backoff =
      ⟨.success url 200 len, [], 1⟩ := by
  simp [politeGetLoop, hs]

theorem politeGetLoop_httpTerminal (env : Nat → AttemptResult) (url : Str)
    (maxRetries : Nat) (cap : ℚ) (fuel attempt : Nat) (backoff : ℚ)
    (s len : Nat) (hs : env attempt = .response s len) (h200 : s ≠ 200)
    (hnr : ¬(s ∈ retryableStatuses ∧ attempt < maxRetries)) :
    politeGetLoop env url maxRetries cap (fuel + 1) attempt backoff =
      ⟨.httpFailure url s len, [], 1⟩ := by
  simp only [politeGetLoop, hs]
  rw [if_neg h200, if_neg hnr]

theorem politeGetLoop_httpRetry (env : Nat → AttemptResult) (url : Str)
    (maxRetries : Nat) (cap : ℚ) (fuel attempt : Nat) (backoff : ℚ)
    (s len : Nat) (hs : env attempt = .response s len) (h200 : s ≠ 200)
    (hr : s ∈ retryableStatuses) (hlt : attempt < maxRetries) :
    politeGetLoop env url maxRetries cap (fuel + 1) attempt backoff =
      ⟨(politeGetLoop env url maxRetries cap fuel (attempt + 1)
          (min (backoff * 2) cap)).outcome,
        backoff :: (politeGetLoop env url maxRetries cap fuel (attempt + 1)
          (min (backoff * 2) cap)).sleeps,
        (politeGetLoop env url maxRetries cap fuel (attempt + 1)
          (min (backoff * 2) cap)).calls + 1⟩ := by
  simp only [politeGetLoop, hs]
  rw [if_neg h200, if_pos ⟨hr, hlt⟩]

theorem politeGetLoop_netFinal (env : Nat → AttemptResult) (url : Str)
    (maxRetries : Nat) (cap : ℚ) (fuel attempt : Nat) (backoff : ℚ) (msg : Str)
    (hs : env attempt = .netError msg) (hm : attempt = maxRetries) :
    politeGetLoop env url maxRetries cap (fuel + 1) attempt backoff =
      ⟨.networkFailure url ("network error: ".toList ++ msg), [], 1⟩ := by
  simp only [politeGetLoop, hs, if_pos hm]

theorem politeGetLoop_netRetry (env : Nat → AttemptResult) (url : Str)
    (maxRetries : Nat) (cap : ℚ) (fuel attempt : Nat) (backoff : ℚ) (msg : Str)
    (hs : env attempt = .netError msg) (hm : attempt ≠ maxRetries) :
    politeGetLoop env url maxRetries cap (fuel + 1) attempt backoff =
      ⟨(politeGetLoop env url maxRetries cap fuel (attempt + 1)
          (min (backoff * 2) cap)).outcome,
        backoff :: (politeGetLoop env url maxRetries cap fuel (attempt + 1)
          (min (backoff * 2) cap)).sleeps,
        (politeGetLoop env url maxRetries cap fuel (attempt + 1)
          (min (backoff * 2) cap)).calls + 1⟩ := by
  simp only [politeGetLoop, hs, if_neg hm]

/-- C3: on any attempt on which a response is received, a 200 status yields
the `Success` outcome immediately, with no sleep and no further `session.get`
call; and any non-retryable non-200 status yields the `HTTPFailure` outcome
with that status immediately, with no sleep and no further call, regardless
of how many attempts remain. -/
theorem c3_terminal_responses (env : Nat → AttemptResult) (url : Str)
    (maxRetries : Nat) (cap : ℚ) (fuel attempt : Nat) (backoff : ℚ) :
    (∀ len, env attempt = .response 200 len →
      politeGetLoop env url maxRetries cap (fuel + 1) attempt backoff =
        ⟨.success url 200 len, [], 1⟩) ∧
    (∀ s len, env attempt = .response s len → s ≠ 200 →
      s ∉ retryableStatuses →
      politeGetLoop env url maxRetries cap (fuel + 1) attempt backoff =
        ⟨.httpFailure url s len, [], 1⟩) := by
  constructor
  · intro len hs
    exact politeGetLoop_success env url maxRetries cap fuel attempt backoff len hs
  · intro s len hs h200 hnr
    exact politeGetLoop_httpTerminal env url maxRetries cap fuel attempt backoff
      s len hs h200 (fun h => hnr h.1)

/-- Witness for C3: a 200 response on attempt 1 of the web variant, and a 404
on attempt 1 with all attempts remaining, at concrete inputs. -/
theorem c3_terminal_responses_witness :
    ((fun _ => AttemptResult.response 200 7) 1 = .response 200 7 →
      politeGetLoop (fun _ => .response 200 7) "u".toList 3 10 3 1 1 =
        ⟨.success "u".toList 200 7, [], 1⟩) ∧
    politeGetLoop (fun _ => .response 404 9) "u".toList 3 10 3 1 1 =
      ⟨.httpFailure "u".toList 404 9, [], 1⟩ :=
  ⟨fun h => (c3_terminal_responses (fun _ => .response 200 7) "u".toList 3 10 2
      1 1).1 7 h,
    (c3_terminal_responses (fun _ => .response 404 9) "u".toList 3 10 2 1 1).2
      404 9 rfl (by decide) (by decide)⟩

/-- C4: attempts answered 503, 503, 200 with at least 3 attempts available
and a backoff cap above 2 produce the `Success` outcome after exactly two
backoff sleeps of 1.0 and 2.0 units, over exactly 3 `session.get` calls. -/
theorem c4_two_backoffs_then_success (env : Nat → AttemptResult) (url : Str)
    (maxRetries : Nat) (cap : ℚ) (l1 l2 l3 : Nat)
    (hmr : 3 ≤ maxRetries) (hcap : 2 < cap)
    (h1 : env 1 = .response 503 l1) (h2 : env 2 = .response 503 l2)
    (h3 : env 3 = .response 200 l3) :
    politeGet env url maxRetries cap = ⟨.success url 200 l3, [1, 2], 3⟩ := by
  obtain ⟨m, rfl⟩ : ∃ m, maxRetries = m + 3 := ⟨maxRetries - 3, by omega⟩
  have hb1 : min ((1 : ℚ) * 2) cap = 2 := by
    rw [one_mul]
    exact min_eq_left (le_of_lt hcap)
  show politeGetLoop env url (m + 3) cap (m + 3) 1 1 = _
  rw [show m + 3 = (m + 2) + 1 by omega,
    politeGetLoop_httpRetry env url ((m + 2) + 1) cap (m + 2) 1 1 503 l1 h1
      (by decide) (by decide) (by omega),
    hb1,
    show m + 2 = (m + 1) + 1 by omega,
    politeGetLoop_httpRetry env url ((m + 2) + 1) cap (m + 1) 2 2 503 l2 h2
      (by decide) (by decide) (by omega),
    politeGetLoop_success env url ((m + 2) + 1) cap m 3 (min (2 * 2) cap) l3 h3]

/-- Witness for C4 in the web variant's configuration (3 attempts, cap 10). -/
theorem c4_two_backoffs_then_success_witness :
    politeGet
      (fun a => if a = 3 then .response 200 11 else .response 503 4)
      "u".toList 3 10 = ⟨.success "u".toList 200 11, [1, 2], 3⟩ :=
  c4_two_backoffs_then_success
    (fun a => if a = 3 then .response 200 11 else .response 503 4)
    "u".toList 3 10 4 4 11 (by decide) (by norm_num) rfl rfl rfl

theorem politeGetLoop_ne_exhausted (env : Nat → AttemptResult) (url : Str)
    (maxRetries : Nat) (cap : ℚ) :
    ∀ fuel attempt backoff, attempt + fuel = maxRetries + 1 → 1 ≤ fuel →
      ∀ u, (politeGetLoop env url maxRetries cap fuel attempt backoff).outcome ≠
        Outcome.retriesExhausted u := by
  intro fuel
  induction fuel with
  | zero => intro attempt backoff _ h1; exact absurd h1 (by decide)
  | succ f ih =>
    intro attempt backoff hsum _ u
    cases henv : env attempt with
    | netError msg =>
      by_cases hm : attempt = maxRetries
      · rw [politeGetLoop_netFinal env url maxRetries cap f attempt backoff msg
          henv hm]
        intro h
        exact Outcome.noConfusion h
      · rw [politeGetLoop_netRetry env url maxRetries cap f attempt backoff msg
          henv hm]
        exact ih (attempt + 1) (min (backoff * 2) cap) (by omega) (by omega) u
    | response s len =>
      by_cases h200 : s = 200
      · subst h200
        rw [politeGetLoop_success env url maxRetries cap f attempt backoff len
          henv]
        intro h
        exact Outcome.noConfusion h
      · by_cases hr : s ∈ retryableStatuses ∧ attempt < maxRetries
        · rw [politeGetLoop_httpRetry env url maxRetries cap f attempt backoff s
            len henv h200 hr.1 hr.2]
          exact ih (attempt + 1) (min (backoff * 2) cap) (by omega) (by omega) u
        · rw [politeGetLoop_httpTerminal env url maxRetries cap f attempt backoff
            s len henv h200 hr]
          intro h
          exact Outcome.noConfusion h

/-- C10: with at least one attempt available, `polite_get` never reaches the
final `max retries exhausted` fallback: whatever the attempt results, the
outcome is a success, an HTTP failure or a network failure.  A retryable
status on the final attempt is returned as `HTTPFailure` and a network error
on the final attempt as `NetworkFailure`, so the loop always returns from
within. -/
theorem c10_exhausted_unreachable (env : Nat → AttemptResult) (url : Str)
    (maxRetries : Nat) (cap : ℚ) (hmr : 1 ≤ maxRetries) :
    ∀ u, (politeGet env url maxRetries cap).outcome ≠
      Outcome.retriesExhausted u := by
  intro u
  exact politeGetLoop_ne_exhausted env url maxRetries cap maxRetries 1 1
    (by omega) hmr u

/-- Witness for C10: a retryable 503 on every attempt of the web variant
still ends in `HTTPFailure`, not `RetriesExhausted`. -/
theorem c10_exhausted_unreachable_witness :
    (politeGet (fun _ => .response 503 4) "u".toList 3 10).outcome ≠
      Outcome.retriesExhausted "u".toList :=
  c10_exhausted_unreachable (fun _ => .response 503 4) "u".toList 3 10
    (by decide) "u".toList

theorem politeGetLoop_sleeps_eq_backoffSeq (env : Nat → AttemptResult)
    (url : Str) (maxRetries : Nat) (cap : ℚ) :
    ∀ fuel attempt j, ∃ k,
      (politeGetLoop env url maxRetries cap fuel attempt
        (backoffSeq cap j)).sleeps = (List.range' j k).map (backoffSeq cap) := by
  intro fuel
  induction fuel with
  | zero => intro attempt j; exact ⟨0, by simp [politeGetLoop]⟩
  | succ f ih =>
    intro attempt j
    have hstep : min (backoffSeq cap j * 2) cap = backoffSeq cap (j + 1) := rfl
    cases henv : env attempt with
    | netError msg =>
      by_cases hm : attempt = maxRetries
      · exact ⟨0, by
          rw [politeGetLoop_netFinal env url maxRetries cap f attempt _ msg
            henv hm]
          simp⟩
      · obtain ⟨k, hk⟩ := ih (attempt + 1) (j + 1)
        refine ⟨k + 1, ?_⟩
        rw [politeGetLoop_netRetry env url maxRetries cap f attempt _ msg
          henv hm, hstep]
        simp only [List.range'_succ, List.map_cons]
        rw [hk]
    | response s len =>
      by_cases h200 : s = 200
      · subst h200
        exact ⟨0, by
          rw [politeGetLoop_success env url maxRetries cap f attempt _ len
            henv]
          simp⟩
      · by_cases hr : s ∈ retryableStatuses ∧ attempt < maxRetries
        · obtain ⟨k, hk⟩ := ih (attempt + 1) (j + 1)
          refine ⟨k + 1, ?_⟩
          rw [politeGetLoop_httpRetry env url maxRetries cap f attempt _ s len
            henv h200 hr.1 hr.2, hstep]
          simp only [List.range'_succ, List.map_cons]
          rw [hk]
        · exact ⟨0, by
            rw [politeGetLoop_httpTerminal env url maxRetries cap f attempt _
              s len henv h200 hr]
            simp⟩

theorem backoffSeq_le_cap (cap : ℚ) (hcap : 1 ≤ cap) :
    ∀ j, backoffSeq cap j ≤ cap := by
  intro j
  induction j with
  | zero => exact hcap
  | succ n _ => exact min_le_right _ _

theorem politeGet_sleeps (env : Nat → AttemptResult) (url : Str)
    (maxRetries : Nat) (cap : ℚ) :
    ∃ k, (politeGet env url maxRetries cap).sleeps =
      (List.range k).map (backoffSeq cap) := by
  obtain ⟨k, hk⟩ :=
    politeGetLoop_sleeps_eq_backoffSeq env url maxRetries cap maxRetries 1 0
  exact ⟨k, by rw [List.range_eq_range']; exact hk⟩

theorem politeGet_sleeps_all_le (env : Nat → AttemptResult) (url : Str)
    (maxRetries : Nat) (cap : ℚ) (hcap : 1 ≤ cap) :
    ((politeGet env url maxRetries cap).sleeps.all
      (fun d => decide (d ≤ cap))) = true := by
  obtain ⟨k, hk⟩ := politeGet_sleeps env url maxRetries cap
  rw [hk]
  refine List.all_eq_true.mpr ?_
  intro x hx
  obtain ⟨j, _, rfl⟩ := List.mem_map.mp hx
  exact decide_eq_true (backoffSeq_le_cap cap hcap j)

/-- C5: in both variants every retry advances the backoff by
`newBackoff = min(previousBackoff * 2, cap)` starting from 1.0 — the slept
backoffs are an initial run of `backoffSeq` — with cap 10 in the web variant
(`app.py`) and 60 in the CLI variant (`fos.py`); consequently no single
backoff sleep exceeds the variant's cap. -/
theorem c5_backoff_growth_and_cap (env : Nat → AttemptResult) (url : Str) :
    (∃ k, (App.polite_get env url).sleeps =
      (List.range k).map (backoffSeq 10)) ∧
    ((App.polite_get env url).sleeps.all (fun d => decide (d ≤ 10))) = true ∧
    (∃ k, (Fos.polite_get env url).sleeps =
      (List.range k).map (backoffSeq 60)) ∧
    ((Fos.polite_get env url).sleeps.all (fun d => decide (d ≤ 60))) = true :=
  ⟨politeGet_sleeps env url 3 10,
    politeGet_sleeps_all_le env url 3 10 (by norm_num),
    politeGet_sleeps env url 5 60,
    politeGet_sleeps_all_le env url 5 60 (by norm_num)⟩

/-- C6: any POST whose URL passes validation but whose `total` parses above
the configured maximum (`DEFAULT_MAX_REQUESTS = 1000`) is rejected with the
"Too many requests" page before any work starts: the handler makes zero
`session.get` calls. -/
theorem c6_total_cap_rejected_before_work (form : Form)
    (env : Nat → Nat → AttemptResult)
    (hurl : ((App.urlOf form).isEmpty ||
      !is_valid_url (replaceToken (App.urlOf form) ['1'])) = false)
    (htot : App.DEFAULT_MAX_REQUESTS < App.totalOf form) :
    App.home form env = (.ok .tooMany, 0) := by
  unfold App.home
  rw [hurl]
  rw [if_neg (by simp), if_pos htot]

/-- Witness for C6: a valid URL with `total = 1001` is rejected with zero
network calls. -/
theorem c6_total_cap_rejected_before_work_witness :
    App.home ⟨some "http://x.test/", some "1001", none, none⟩
      (fun _ _ => .response 200 0) = (.ok .tooMany, 0) :=
  c6_total_cap_rejected_before_work
    ⟨some "http://x.test/", some "1001", none, none⟩
    (fun _ _ => .response 200 0) (by decide) (by decide)

/-- C2 (code bug): the web handler's validation accepts the delay "-1"
(`float("-1")` parses, and no sign check follows), the batch then runs, and
the worker's pacing `time.sleep(-1.0)` raises `ValueError`, so the batch
operation itself raises after one `session.get` call instead of returning a
result — contradicting the spec's requirement that `perWorkerDelaySeconds` be
validated non-negative and that the batch never fails once validation
passes. -/
theorem c2_negative_delay_crashes_batch :
    App.delayOf ⟨some "http://x.test/", some "1", some "1", some "-1"⟩ = -1 ∧
    pySleep (-1) = .error sleepErrMsg ∧
    App.home ⟨some "http://x.test/", some "1", some "1", some "-1"⟩
      (fun _ _ => .response 200 0) = (.error sleepErrMsg, 1) :=
  ⟨rfl, rfl, rfl⟩

theorem collectE_ok_length (l : List (Except Str Outcome)) (rs : List Outcome)
    (h : collectE l = .ok rs) : rs.length = l.length := by
  induction l generalizing rs with
  | nil =>
    simp only [collectE] at h
    cases h
    rfl
  | cons x xs ih =>
    cases x with
    | error e => simp [collectE] at h
    | ok r =>
      simp only [collectE] at h
      cases hc : collectE xs with
      | error e => rw [hc] at h; simp [Except.map] at h
      | ok rs' =>
        rw [hc] at h
        simp only [Except.map, Except.ok.injEq] at h
        subst h
        simp [ih rs' hc]

theorem App.home_summary_inv (form : Form) (env : Nat → Nat → AttemptResult)
    (total : ℤ) (ok : Nat) (errors : ℤ) (results : List Outcome) (calls : Nat)
    (h : App.home form env = (.ok (.summary total ok errors results), calls)) :
    total = App.totalOf form ∧ ok = count200 results ∧
      errors = total - (count200 results : ℤ) ∧
      collectE ((App.traces form env).map Prod.fst) = .ok results := by
  unfold App.home at h
  split at h
  · simp at h
  · split at h
    · simp at h
    · split at h
      · simp at h
      · split at h
        · simp at h
        · rename_i results' heq
          simp only [App.summarize, Prod.mk.injEq, Except.ok.injEq,
            HomeResponse.summary.injEq] at h
          obtain ⟨⟨ht, hok, herr, hres⟩, _⟩ := h
          subst hres
          exact ⟨ht.symm, hok.symm, by rw [← ht]; exact herr.symm, heq⟩

theorem countSplit (l : List Outcome) :
    l.length = count200 l + l.countP (fun r => decide (statusOf r ≠ some 200)) := by
  have h := l.length_eq_countP_add_countP (fun r => statusOf r == some 200)
  simpa [count200, decide_not] using h

/-- C1: whenever a batch reaches its summary (the handler returns the results
page, which requires validation to have passed and every worker to have
returned), there are exactly as many collected outcomes as the accepted
positive total, the page's `ok` plus `errors` counts equal that total, `ok`
counts exactly the outcomes with status code 200, and `errors` counts all
other outcomes (HTTP failures, network failures, exhausted retries); the CLI
variant's summary satisfies the same invariant. -/
theorem c1_aggregation_invariant :
    (∀ (form : Form) (env : Nat → Nat → AttemptResult) (total : ℤ) (ok : Nat)
      (errors : ℤ) (results : List Outcome) (calls : Nat),
      App.home form env = (.ok (.summary total ok errors results), calls) →
      0 < total →
      (results.length : ℤ) = total ∧ (ok : ℤ) + errors = total ∧
        ok = count200 results ∧
        errors = (results.countP (fun r => decide (statusOf r ≠ some 200)) : ℤ)) ∧
    (∀ (env : Nat → Nat → AttemptResult) (url : Str) (total : Nat) (delay : ℚ)
      (ok : Nat) (errors : ℤ) (results : List Outcome) (calls : Nat),
      Fos.mainBatch env url total delay = (.ok (ok, errors, results), calls) →
      results.length = total ∧ (ok : ℤ) + errors = total ∧
        ok = count200 results ∧
        errors = (results.countP (fun r => decide (statusOf r ≠ some 200)) : ℤ)) := by
  constructor
  · intro form env total ok errors results calls h hpos
    obtain ⟨ht, hok, herr, hcoll⟩ :=
      App.home_summary_inv form env total ok errors results calls h
    subst ht
    have hlen : results.length = (App.totalOf form).toNat := by
      rw [collectE_ok_length _ _ hcoll]
      simp [App.traces]
    have hlenZ : (results.length : ℤ) = App.totalOf form := by
      rw [hlen]
      exact Int.toNat_of_nonneg (le_of_lt hpos)
    have hsplit := countSplit results
    refine ⟨hlenZ, by omega, hok, by omega⟩
  · intro env url total delay ok errors results calls h
    simp only [Fos.mainBatch] at h
    split at h
    · simp at h
    · rename_i results' heq
      simp only [Prod.mk.injEq, Except.ok.injEq] at h
      obtain ⟨⟨hok, herr, hres⟩, -⟩ := h
      subst hres
      have hlen : results'.length = total := by
        rw [collectE_ok_length _ _ heq]
        simp
      have hsplit := countSplit results'
      exact ⟨hlen, by omega, hok.symm, by omega⟩

/-- Witness for C1: a two-request batch with one 200 and one 404. -/
theorem c1_aggregation_invariant_witness :
    (([Outcome.success "http://x.test/".toList 200 5,
        Outcome.httpFailure "http://x.test/".toList 404 3].length : ℤ) = 2) ∧
    ((1 : ℤ) + 1 = 2) ∧
    (1 = count200 [Outcome.success "http://x.test/".toList 200 5,
        Outcome.httpFailure "http://x.test/".toList 404 3]) ∧
    ((1 : ℤ) = ([Outcome.success "http://x.test/".toList 200 5,
        Outcome.httpFailure "http://x.test/".toList 404 3].countP
          (fun r => decide (statusOf r ≠ some 200)) : ℤ)) :=
  c1_aggregation_invariant.1 ⟨some "http://x.test/", some "2", none, some "0"⟩
    (fun i _ => if i = 1 then .response 200 5 else .response 404 3)
    2 1 1
    [Outcome.success "http://x.test/".toList 200 5,
      Outcome.httpFailure "http://x.test/".toList 404 3] 2
    rfl (by decide)

theorem isSpace_eq_false_of_isDigit (c : Char) (h : c.isDigit = true) :
    isSpace c = false := by
  by_contra hs
  rw [Bool.not_eq_false] at hs
  simp only [isSpace, Bool.or_eq_true, beq_iff_eq] at hs
  rcases hs with ((((hc | hc) | hc) | hc) | hc) | hc <;> subst hc <;>
    exact absurd h (by decide)

theorem dropWhile_isSpace_eq_self (l : Str)
    (h : ∀ c ∈ l, isSpace c = false) : l.dropWhile isSpace = l := by
  cases l with
  | nil => rfl
  | cons c cs => simp [List.dropWhile_cons, h c (List.mem_cons_self c cs)]

theorem stripChars_eq_self (l : Str) (h : ∀ c ∈ l, isSpace c = false) :
    stripChars l = l := by
  unfold stripChars
  rw [dropWhile_isSpace_eq_self l h,
    dropWhile_isSpace_eq_self l.reverse
      (fun c hc => h c (List.mem_reverse.mp hc)),
    List.reverse_reverse]

theorem pyInt_all_digits (l : Str) (hne : l ≠ [])
    (hdig : l.all Char.isDigit = true) :
    pyInt l = some ((digitsVal l : ℤ)) := by
  have hstrip : stripChars l = l :=
    stripChars_eq_self l
      (fun c hc => isSpace_eq_false_of_isDigit c (List.all_eq_true.mp hdig c hc))
  unfold pyInt
  rw [hstrip]
  have hdtn : digitsToNat l = some (digitsVal l) := by
    simp [digitsToNat, hne, hdig]
  cases l with
  | nil => exact absurd rfl hne
  | cons c cs =>
    have hcdig : c.isDigit = true :=
      List.all_eq_true.mp hdig c (List.mem_cons_self c cs)
    split
    · rename_i ds hmatch
      rw [List.cons.injEq] at hmatch
      exact absurd hcdig (by rw [hmatch.1]; decide)
    · rename_i ds hmatch
      rw [List.cons.injEq] at hmatch
      exact absurd hcdig (by rw [hmatch.1]; decide)
    · rw [hdtn]
      rfl

theorem fosTotalCheck_pos (v : Str) (h : Fos.totalCheck v = true) :
    ∃ k : ℤ, pyInt v = some k ∧ 0 < k := by
  have h' := h
  simp only [Fos.totalCheck, pyIsdigit, Bool.and_eq_true] at h'
  obtain ⟨⟨hne', hdig⟩, hpos⟩ := h'
  have hne : v ≠ [] := by
    cases v with
    | nil => exact absurd hne' (by decide)
    | cons c cs => exact List.cons_ne_nil c cs
  have hk : pyInt v = some ((digitsVal v : ℤ)) := pyInt_all_digits v hne hdig
  refine ⟨(digitsVal v : ℤ), hk, ?_⟩
  rw [hk] at hpos
  exact of_decide_eq_true hpos

/-- C7 counterexample: the web handler accepts the raw total "0" — `int("0")`
parses to 0 and no positivity check exists — and the batch proceeds to an
empty summary page instead of being rejected with any validation error. -/
theorem c7_zero_total_accepted :
    App.totalOf ⟨some "http://x.test/", some "0", none, none⟩ = 0 ∧
    App.home ⟨some "http://x.test/", some "0", none, none⟩
      (fun _ _ => .response 200 0) = (.ok (.summary 0 0 0 []), 0) :=
  ⟨rfl, rfl⟩

/-- C7 amended: the CLI variant's prompt validator only accepts totals that
parse as positive integers, so no CLI batch runs with a zero, negative or
unparsable total; the web variant, however, rejects nothing — an absent or
unparsable total silently defaults to 1, and a zero or negative parsed total
is accepted without any validation error, the batch then dispatching no
requests. -/
theorem c7_total_validation_amended :
    (∀ v : Str, Fos.totalCheck v = true → ∃ k : ℤ, pyInt v = some k ∧ 0 < k) ∧
    parseIntOr none 1 = 1 ∧
    (∀ s : String, s ≠ "" → pyInt s.toList = none →
      parseIntOr (some s) 1 = 1) ∧
    (∀ (form : Form) (env : Nat → Nat → AttemptResult) (total : ℤ) (ok : Nat)
      (errors : ℤ) (results : List Outcome) (calls : Nat),
      App.home form env = (.ok (.summary total ok errors results), calls) →
      total ≤ 0 → results = []) := by
  refine ⟨fosTotalCheck_pos, rfl, ?_, ?_⟩
  · intro s hne hparse
    show (if s = "" then 1 else (pyInt s.toList).getD 1) = 1
    rw [if_neg hne, hparse]
    rfl
  · intro form env total ok errors results calls h hle
    obtain ⟨ht, _, _, hcoll⟩ :=
      App.home_summary_inv form env total ok errors results calls h
    have hlen : results.length = (App.totalOf form).toNat := by
      rw [collectE_ok_length _ _ hcoll]
      simp [App.traces]
    have : (App.totalOf form).toNat = 0 := by omega
    rw [this] at hlen
    exact List.length_eq_zero.mp hlen

/-- Witness for C7 amended: the CLI validator on "3", an unparsable web
total, and a zero-total accepted batch. -/
theorem c7_total_validation_amended_witness :
    (∃ k : ℤ, pyInt "3".toList = some k ∧ 0 < k) ∧
    parseIntOr (some "abc") 1 = 1 ∧ ([] : List Outcome) = [] :=
  ⟨c7_total_validation_amended.1 "3".toList (by decide),
    c7_total_validation_amended.2.2.1 "abc" (by decide) (by decide),
    c7_total_validation_amended.2.2.2
      ⟨some "http://x.test/", some "0", none, none⟩
      (fun _ _ => .response 200 0) 0 0 0 [] 0 rfl (by decide)⟩

theorem startsWithSeq_append_self (p r : Str) :
    startsWithSeq p (p ++ r) = true := by
  induction p with
  | nil => rfl
  | cons c cs ih => simp [startsWithSeq, ih]

theorem containsSeq_append_self (x p r : Str) (hp : p ≠ []) :
    containsSeq p (x ++ (p ++ r)) = true := by
  induction x with
  | nil =>
    cases p with
    | nil => exact absurd rfl hp
    | cons q qs =>
      simp only [List.nil_append, List.cons_append, containsSeq,
        Bool.or_eq_true]
      exact Or.inl (startsWithSeq_append_self (q :: qs) r)
  | cons c cs ih =>
    simp only [List.cons_append, containsSeq, Bool.or_eq_true]
    exact Or.inr ih

theorem pyFmtGo_literal_append (n : Nat) (a : Str) (ha : braceFree a) :
    ∀ (rest : Str) (fuel : Nat),
      pyFmtGo n (a.length + fuel) none (a ++ rest) =
        (pyFmtGo n fuel none rest).map (fun t => a ++ t) := by
  induction a with
  | nil =>
    intro rest fuel
    rw [List.nil_append, List.length_nil, Nat.zero_add]
    cases h : pyFmtGo n fuel none rest <;> simp [Except.map]
  | cons c cs ih =>
    intro rest fuel
    obtain ⟨hc1, hc2⟩ := ha c (List.mem_cons_self c cs)
    have hcs : braceFree cs := fun d hd => ha d (List.mem_cons_of_mem c hd)
    rw [show (c :: cs).length + fuel = (cs.length + fuel) + 1 by
      simp [Nat.succ_add]]
    rw [List.cons_append]
    show (if c = '\x7b' then _ else if c = '\x7d' then _ else
      (pyFmtGo n (cs.length + fuel) none (cs ++ rest)).map
        (fun t => c :: t)) = _
    rw [if_neg hc1, if_neg hc2, ih hcs rest fuel]
    cases h : pyFmtGo n fuel none rest <;> simp [Except.map]

theorem pyFmtGo_placeholder (n : Nat) (fuel : Nat) (rest : Str) :
    pyFmtGo n (fuel + 3) none (nTok ++ rest) =
      (pyFmtGo n fuel none rest).map (fun t => Nat.toDigits 10 n ++ t) := rfl

theorem pyFmtGo_braceFree_closed (n : Nat) (b : Str) (hb : braceFree b) :
    ∀ fuel : Nat, pyFmtGo n (b.length + fuel) none b = .ok b := by
  induction b with
  | nil => intro fuel; cases fuel <;> rfl
  | cons c cs ih =>
    intro fuel
    obtain ⟨hc1, hc2⟩ := hb c (List.mem_cons_self c cs)
    have hcs : braceFree cs := fun d hd => hb d (List.mem_cons_of_mem c hd)
    rw [show (c :: cs).length + fuel = (cs.length + fuel) + 1 by
      simp [Nat.succ_add]]
    show (if c = '\x7b' then _ else if c = '\x7d' then _ else
      (pyFmtGo n (cs.length + fuel) none cs).map (fun t => c :: t)) = _
    rw [if_neg hc1, if_neg hc2, ih hcs fuel]
    rfl

theorem expandURL_no_placeholder (t : Str) (i : Nat)
    (h : containsSeq nTok t = false) : expandURL t i = .ok t := by
  unfold expandURL
  rw [h]
  rfl

theorem expandURL_single_placeholder (a b : Str) (i : Nat)
    (ha : braceFree a) (hb : braceFree b) :
    expandURL (a ++ (nTok ++ b)) i =
      .ok (a ++ (Nat.toDigits 10 i ++ b)) := by
  have hc : containsSeq nTok (a ++ (nTok ++ b)) = true :=
    containsSeq_append_self a nTok b (by decide)
  unfold expandURL
  rw [hc]
  show pyFormatN i (a ++ (nTok ++ b)) = _
  unfold pyFormatN
  rw [show (a ++ (nTok ++ b)).length = a.length + ((b.length + 0) + 3) by
    simp [nTok]]
  rw [pyFmtGo_literal_append i a ha (nTok ++ b) ((b.length + 0) + 3),
    pyFmtGo_placeholder i (b.length + 0) b,
    pyFmtGo_braceFree_closed i b hb 0]
  rfl

/-- C8 counterexample: the template consisting of an escaped placeholder
contains the placeholder substring, yet expansion returns the format-escaped
text rather than substituting the index — `str.format` treats the doubled
braces as escapes, unlike the plain substitution the claim describes. -/
theorem c8_escaped_placeholder_counterexample :
    containsSeq nTok "\x7b\x7bn\x7d\x7d".toList = true ∧
    expandURL "\x7b\x7bn\x7d\x7d".toList 1 = .ok "\x7bn\x7d".toList ∧
    specExpand "\x7b\x7bn\x7d\x7d".toList 1 = "\x7b1\x7d".toList ∧
    ("\x7bn\x7d".toList : Str) ≠ "\x7b1\x7d".toList :=
  ⟨rfl, rfl, rfl, by decide⟩

/-- C8 amended: for a template made of a single placeholder occurrence
surrounded by brace-free text, expansion substitutes the decimal index for
the placeholder; a template without the placeholder substring is returned
unchanged for every index, so all requests then target the same literal URL.
Templates whose placeholder occurs amid other brace syntax are escaped or
rejected by `str.format` instead. -/
theorem c8_expansion_substitutes (a b : Str) (i : Nat) (_hi : 0 < i)
    (ha : braceFree a) (hb : braceFree b) :
    expandURL (a ++ (nTok ++ b)) i = .ok (a ++ (Nat.toDigits 10 i ++ b)) ∧
    (∀ (t : Str) (j : Nat), containsSeq nTok t = false →
      expandURL t j = .ok t) :=
  ⟨expandURL_single_placeholder a b i ha hb,
    fun t j h => expandURL_no_placeholder t j h⟩

/-- Witness for C8 amended: the spec's example template and a literal
template. -/
theorem c8_expansion_substitutes_witness :
    expandURL ("http://x.test/".toList ++ (nTok ++ [])) 2 =
      .ok ("http://x.test/".toList ++ (Nat.toDigits 10 2 ++ [])) ∧
    (∀ (t : Str) (j : Nat), containsSeq nTok t = false →
      expandURL t j = .ok t) :=
  c8_expansion_substitutes "http://x.test/".toList [] 2 (by decide)
    (by decide) (by decide)

/-- C9 counterexample: a malformed template that does contain the placeholder
makes `str.format` raise (modelled as `Except.error`), the error escaping
`worker_task` — expansion is not a total error-free function, and malformed
templates do not merely fail the later URL validation. -/
theorem c9_malformed_template_raises :
    containsSeq nTok "\x7bn\x7d\x7b".toList = true ∧
    expandURL "\x7bn\x7d\x7b".toList 1 = .error fmtUnterminatedMsg ∧
    Fos.worker_task (fun _ => .response 200 0) "\x7bn\x7d\x7b".toList 1 0 =
      (.error fmtUnterminatedMsg, 0) :=
  ⟨rfl, rfl, rfl⟩

/-- C9 amended: expansion is pure and error-free on every template that
either lacks the placeholder substring (returned unchanged) or consists of a
single placeholder occurrence surrounded by brace-free text; templates
containing the placeholder amid other brace syntax raise a format error that
propagates out of the worker. -/
theorem c9_expansion_total_on_wellformed :
    (∀ (t : Str) (i : Nat), containsSeq nTok t = false →
      ∃ u, expandURL t i = .ok u) ∧
    (∀ (a b : Str) (i : Nat), braceFree a → braceFree b →
      ∃ u, expandURL (a ++ (nTok ++ b)) i = .ok u) :=
  ⟨fun t i h => ⟨t, expandURL_no_placeholder t i h⟩,
    fun a b i ha hb =>
      ⟨a ++ (Nat.toDigits 10 i ++ b), expandURL_single_placeholder a b i ha hb⟩⟩

/-- Witness for C9 amended: a literal template and the spec's example
template both expand without error. -/
theorem c9_expansion_total_on_wellformed_witness :
    (∃ u, expandURL "http://y.test/".toList 3 = .ok u) ∧
    (∃ u, expandURL ("http://x.test/".toList ++ (nTok ++ [])) 3 = .ok u) :=
  ⟨c9_expansion_total_on_wellformed.1 "http://y.test/".toList 3 (by decide),
    c9_expansion_total_on_wellformed.2 "http://x.test/".toList [] 3 (by decide)
      (by decide)⟩
